import Mathlib

/-!
Verification of the particle advection engine of the hrrr-weather-viz
repository against its natural-language specification.

Shallow embedding conventions:
* JavaScript numbers are modelled as rationals; all arithmetic performed by
  the engine on pixel positions, geographic coordinates, decode formulas and
  zoom multipliers is exact over the rationals.
* The RGBA byte buffer of a wind field (a Uint8Array in the source) is
  modelled as a function from buffer index to byte value.
* The lifecycle and advection code of SkiaWindParticles.tsx (initParticles,
  updateParticles) mutates particles in place inside a forEach loop; here it
  becomes a pure per-particle transition function mapped over the particle
  list.  Calls to Math.random() (only performed when a particle is spawned
  or respawned) are modelled by explicitly supplied random draws, one tuple
  per particle per tick; a draw plays the role of a Math.random() result and
  is constrained to [0, 1) where a theorem needs that fact.
-/

namespace HrrrWind

/-- Geographic bounds record, from the WindData interface of
SkiaWindParticles.tsx (lines 30-36) and useWindData.ts (lines 7-12). -/
structure GeoBounds where
  west : ℚ
  east : ℚ
  south : ℚ
  north : ℚ
deriving DecidableEq

/-- A decoded wind field: grid dimensions, RGBA byte buffer and geographic
bounds, from the WindData interface of SkiaWindParticles.tsx (lines 24-37).
The buffer is row-major, four bytes per pixel (R, G, B, A). -/
structure WindData where
  width : ℕ
  height : ℕ
  data : ℕ → ℕ
  bounds : GeoBounds

/-- One trail point, a geographic position, from the Particle interface of
SkiaWindParticles.tsx (line 47). -/
structure GeoPoint where
  lng : ℚ
  lat : ℚ
deriving DecidableEq

/-- Per-particle simulation state, from the Particle interface of
SkiaWindParticles.tsx (lines 39-48). -/
structure Particle where
  id : ℕ
  x : ℚ
  y : ℚ
  lng : ℚ
  lat : ℚ
  age : ℤ
  maxAge : ℤ
  trail : List GeoPoint
deriving DecidableEq

/-- getParticleCount of SkiaWindParticles.tsx (lines 87-94): zoom-adaptive
particle count.  Math.floor becomes Int.floor; the first branch returns the
base count unfloored, exactly as the source does. -/
def getParticleCount (zoom : ℚ) (baseCount : ℚ) : ℚ :=
  if zoom < 4 then baseCount
  else if zoom < 6 then ((⌊baseCount * 0.5⌋ : ℤ) : ℚ)
  else if zoom < 8 then ((⌊baseCount * 0.2⌋ : ℤ) : ℚ)
  else if zoom < 10 then ((⌊baseCount * 0.08⌋ : ℤ) : ℚ)
  else if zoom < 12 then ((⌊baseCount * 0.04⌋ : ℤ) : ℚ)
  else ((⌊baseCount * 0.025⌋ : ℤ) : ℚ)

/-- getSpeedFactor of SkiaWindParticles.tsx (lines 97-104): zoom-adaptive
advection speed factor (constants, pixels per tick per m/s). -/
def getSpeedFactor (zoom : ℚ) : ℚ :=
  if zoom < 4 then 0.08
  else if zoom < 6 then 0.06
  else if zoom < 8 then 0.03
  else if zoom < 10 then 0.015
  else if zoom < 12 then 0.006
  else 0.002

/-- getSpeedFactor of the deck.gl variant, src/unnamed/part_007
(lines 388-395): multiplies the configured base speed factor by a
zoom-dependent coefficient. -/
def getSpeedFactorDeck (zoom : ℚ) (speedFactor : ℚ) : ℚ :=
  if zoom < 4 then speedFactor
  else if zoom < 6 then speedFactor * 0.7
  else if zoom < 8 then speedFactor * 0.4
  else if zoom < 10 then speedFactor * 0.15
  else if zoom < 12 then speedFactor * 0.06
  else speedFactor * 0.02

/-- getTrailLength of SkiaWindParticles.tsx (lines 107-114): zoom-adaptive
trail length.  The configured base length is an integer (default 15). -/
def getTrailLength (zoom : ℚ) (baseLength : ℤ) : ℤ :=
  if zoom < 4 then baseLength
  else if zoom < 6 then ⌊(baseLength : ℚ) * 0.8⌋
  else if zoom < 8 then ⌊(baseLength : ℚ) * 0.6⌋
  else if zoom < 10 then ⌊(baseLength : ℚ) * 0.4⌋
  else if zoom < 12 then ⌊(baseLength : ℚ) * 0.25⌋
  else max 3 ⌊(baseLength : ℚ) * 0.15⌋

/-- decodeWindComponent of useWindData.ts (lines 67-70): byte to physical
value.  The source defaults are mn = -50, mx = 50. -/
def decodeWindComponent (encoded : ℕ) (mn mx : ℚ) : ℚ :=
  ((encoded : ℚ) / 255) * (mx - mn) + mn

/-- Result record of getWindAtPixel of useWindData.ts. -/
structure WindSample where
  u : ℚ
  v : ℚ
  magnitude : ℚ
deriving DecidableEq

/-- getWindAtPixel of useWindData.ts (lines 156-178): floors the pixel
coordinates, rejects out-of-range addresses and zero-alpha pixels, and
otherwise decodes u from R, v from G and magnitude from B.  The hook-level
null check on windData itself is outside this pure function. -/
def getWindAtPixel (wd : WindData) (x y : ℚ) : Option WindSample :=
  if ⌊x⌋ < 0 ∨ (wd.width : ℤ) ≤ ⌊x⌋ ∨ ⌊y⌋ < 0 ∨ (wd.height : ℤ) ≤ ⌊y⌋ then
    none
  else if wd.data ((⌊y⌋.toNat * wd.width + ⌊x⌋.toNat) * 4 + 3) = 0 then
    none
  else
    some
      { u := decodeWindComponent (wd.data ((⌊y⌋.toNat * wd.width + ⌊x⌋.toNat) * 4)) (-50) 50,
        v := decodeWindComponent (wd.data ((⌊y⌋.toNat * wd.width + ⌊x⌋.toNat) * 4 + 1)) (-50) 50,
        magnitude := ((wd.data ((⌊y⌋.toNat * wd.width + ⌊x⌋.toNat) * 4 + 2) : ℚ) / 255) * 70.7 }

/-- Longitude to pixel x, SkiaWindParticles.tsx lines 168 and 236. -/
def lngToPixelX (b : GeoBounds) (width : ℕ) (lng : ℚ) : ℚ :=
  ((lng - b.west) / (b.east - b.west)) * width

/-- Latitude to pixel y, SkiaWindParticles.tsx lines 169 and 237. -/
def latToPixelY (b : GeoBounds) (height : ℕ) (lat : ℚ) : ℚ :=
  ((b.north - lat) / (b.north - b.south)) * height

/-- Pixel x to longitude, SkiaWindParticles.tsx line 215. -/
def pixelXToLng (b : GeoBounds) (width : ℕ) (x : ℚ) : ℚ :=
  b.west + (x / width) * (b.east - b.west)

/-- Pixel y to latitude, SkiaWindParticles.tsx line 216. -/
def pixelYToLat (b : GeoBounds) (height : ℕ) (y : ℚ) : ℚ :=
  b.north - (y / height) * (b.north - b.south)

/-- JavaScript Array.prototype.slice(0, e) on a trail: a nonnegative end
index takes a prefix, a negative end index counts back from the end. -/
def jsSliceTo (e : ℤ) (xs : List GeoPoint) : List GeoPoint :=
  if 0 ≤ e then xs.take e.toNat else xs.take (xs.length - e.natAbs)

/-- The trail update of updateParticles, SkiaWindParticles.tsx lines
219-222: unshift the new point, then slice down to the current trail length
when the grown trail exceeds it. -/
def growTrail (trailLen : ℤ) (pt : GeoPoint) (trail : List GeoPoint) : List GeoPoint :=
  if trailLen < ((pt :: trail).length : ℤ) then jsSliceTo trailLen (pt :: trail)
  else pt :: trail

/-- The valid-sample advection body of updateParticles,
SkiaWindParticles.tsx lines 205-223: decode u and v from the R and G bytes
at the sampled pixel, advect the pixel position (y moves against v),
recompute the geographic position, prepend it to the trail and trim the
trail to the current trail length. -/
def advectValid (wd : WindData) (speedF : ℚ) (trailLen : ℤ) (p : Particle) : Particle :=
  let idx := (⌊p.y⌋.toNat * wd.width + ⌊p.x⌋.toNat) * 4
  let u := ((wd.data idx : ℚ) / 255) * 100 - 50
  let v := ((wd.data (idx + 1) : ℚ) / 255) * 100 - 50
  let newX := p.x + u * speedF
  let newY := p.y - v * speedF
  let newLng := pixelXToLng wd.bounds wd.width newX
  let newLat := pixelYToLat wd.bounds wd.height newY
  { p with
    x := newX, y := newY, lng := newLng, lat := newLat,
    trail := growTrail trailLen (GeoPoint.mk newLng newLat) p.trail }

/-- The sampling stage of updateParticles, SkiaWindParticles.tsx lines
196-224: the particle is advected only when its floored pixel position is
inside the grid and the alpha byte at that pixel is positive; otherwise it
is left untouched (it coasts). -/
def advect (wd : WindData) (speedF : ℚ) (trailLen : ℤ) (p : Particle) : Particle :=
  if 0 ≤ ⌊p.x⌋ ∧ ⌊p.x⌋ < (wd.width : ℤ) ∧ 0 ≤ ⌊p.y⌋ ∧ ⌊p.y⌋ < (wd.height : ℤ) then
    if 0 < wd.data ((⌊p.y⌋.toNat * wd.width + ⌊p.x⌋.toNat) * 4 + 3) then
      advectValid wd speedF trailLen p
    else p
  else p

/-- The respawn body of updateParticles, SkiaWindParticles.tsx lines
234-242: pick a fresh uniform geographic position from the three random
draws, map it to pixel space, reset age, re-randomize maxAge and reset the
trail to a single point. -/
def respawnParticle (wd : WindData) (maxAgeParam : ℤ) (r : ℚ × ℚ × ℚ) (p : Particle) : Particle :=
  let lng := wd.bounds.west + r.1 * (wd.bounds.east - wd.bounds.west)
  let lat := wd.bounds.south + r.2.1 * (wd.bounds.north - wd.bounds.south)
  { p with
    x := lngToPixelX wd.bounds wd.width lng,
    y := latToPixelY wd.bounds wd.height lat,
    lng := lng, lat := lat,
    age := 0,
    maxAge := maxAgeParam + ⌊r.2.2 * 30⌋ - 15,
    trail := [GeoPoint.mk lng lat] }

/-- The aging and reset stage of updateParticles, SkiaWindParticles.tsx
lines 226-243: increment age, then respawn when the incremented age exceeds
maxAge or the pixel position lies outside the grid. -/
def ageAndRespawn (wd : WindData) (maxAgeParam : ℤ) (r : ℚ × ℚ × ℚ) (p : Particle) : Particle :=
  if p.maxAge < p.age + 1 ∨ p.x < 0 ∨ (wd.width : ℚ) ≤ p.x ∨
      p.y < 0 ∨ (wd.height : ℚ) ≤ p.y then
    respawnParticle wd maxAgeParam r { p with age := p.age + 1 }
  else { p with age := p.age + 1 }

/-- One full per-particle tick of updateParticles, SkiaWindParticles.tsx
lines 195-244: sampling and advection, then aging and conditional respawn. -/
def updateParticle (wd : WindData) (speedF : ℚ) (trailLen : ℤ) (maxAgeParam : ℤ)
    (r : ℚ × ℚ × ℚ) (p : Particle) : Particle :=
  ageAndRespawn wd maxAgeParam r (advect wd speedF trailLen p)

/-- Index-aware map over the particle list, modelling the forEach loop of
updateParticles, each particle receiving its own random draws. -/
def updateEach (f : ℕ → Particle → Particle) : ℕ → List Particle → List Particle
  | _, [] => []
  | i, p :: ps => f i p :: updateEach f (i + 1) ps

/-- updateParticles of SkiaWindParticles.tsx (lines 187-245): compute the
zoom-derived speed factor and trail length once, then update every particle.
rng i supplies the random draws that particle i would consume if it
respawned this tick. -/
def updateParticles (wd : WindData) (zoom : ℚ) (baseTrailLength maxAgeParam : ℤ)
    (rng : ℕ → ℚ × ℚ × ℚ) (ps : List Particle) : List Particle :=
  updateEach
    (fun i p =>
      updateParticle wd (getSpeedFactor zoom) (getTrailLength zoom baseTrailLength)
        maxAgeParam (rng i) p) 0 ps

/-- n consecutive updateParticles ticks; tick t consumes the draws rngs t. -/
def stepN (wd : WindData) (zoom : ℚ) (baseTrailLength maxAgeParam : ℤ)
    (rngs : ℕ → ℕ → ℚ × ℚ × ℚ) : ℕ → List Particle → List Particle
  | 0, ps => ps
  | n + 1, ps =>
      updateParticles wd zoom baseTrailLength maxAgeParam (rngs n)
        (stepN wd zoom baseTrailLength maxAgeParam rngs n ps)

/-- One particle of initParticles, SkiaWindParticles.tsx lines 165-181:
uniform random geographic position inside the field bounds, pixel position
by the affine mapping, age seeded uniformly below the configured maxAge,
per-particle maxAge jitter, and a one-point trail. -/
def initParticle (wd : WindData) (maxAgeParam : ℤ) (i : ℕ) (r : ℚ × ℚ × ℚ × ℚ) : Particle :=
  let lng := wd.bounds.west + r.1 * (wd.bounds.east - wd.bounds.west)
  let lat := wd.bounds.south + r.2.1 * (wd.bounds.north - wd.bounds.south)
  { id := i,
    x := lngToPixelX wd.bounds wd.width lng,
    y := latToPixelY wd.bounds wd.height lat,
    lng := lng, lat := lat,
    age := ⌊r.2.2.1 * (maxAgeParam : ℚ)⌋,
    maxAge := maxAgeParam + ⌊r.2.2.2 * 30⌋ - 15,
    trail := [GeoPoint.mk lng lat] }

/-- Fixture: a 1x1 field whose single pixel has R = 255, G = 255, B = 0 and
A = 255 (valid), used to exercise the sampler on a zero blue channel. -/
def blueZeroField : WindData :=
  { width := 1, height := 1,
    data := fun j => if j % 4 = 2 then 0 else 255,
    bounds := { west := 0, east := 1, south := 0, north := 1 } }

/-- Fixture: a 1x1 field whose every byte is 0, so the validity (alpha)
byte of every pixel is 0. -/
def allInvalidField : WindData :=
  { width := 1, height := 1, data := fun _ => 0,
    bounds := { west := 0, east := 1, south := 0, north := 1 } }

/-- Fixture: a 1x1 field whose every byte is 255, so the single pixel is
valid with u = v = 50 after decoding. -/
def allValidField : WindData :=
  { width := 1, height := 1, data := fun _ => 255,
    bounds := { west := 0, east := 1, south := 0, north := 1 } }

/-- Fixture: a degenerate field with zero width. -/
def zeroWidthField : WindData :=
  { width := 0, height := 1, data := fun _ => 255,
    bounds := { west := 0, east := 1, south := 0, north := 1 } }

/-- C5: round-trip projection.  For coordinates inside the field bounds,
mapping to pixel space by lngToPixelX / latToPixelY and back by
pixelXToLng / pixelYToLat reproduces the original coordinates within
tolerance 1e-9 (over the rationals the round trip is exact). -/
theorem c5_round_trip_projection (b : GeoBounds) (width height : ℕ) (lng lat : ℚ)
    (hwe : b.west < b.east) (hsn : b.south < b.north)
    (hw : 0 < width) (hh : 0 < height)
    (hlng1 : b.west ≤ lng) (hlng2 : lng ≤ b.east)
    (hlat1 : b.south ≤ lat) (hlat2 : lat ≤ b.north) :
    |pixelXToLng b width (lngToPixelX b width lng) - lng| ≤ 1 / 1000000000 ∧
    |pixelYToLat b height (latToPixelY b height lat) - lat| ≤ 1 / 1000000000 := by
  have hX : pixelXToLng b width (lngToPixelX b width lng) = lng := by
    unfold pixelXToLng lngToPixelX
    have h1 : b.east - b.west ≠ 0 := sub_ne_zero.mpr (ne_of_gt hwe)
    have h2 : (width : ℚ) ≠ 0 := by positivity
    field_simp
    ring
  have hY : pixelYToLat b height (latToPixelY b height lat) = lat := by
    unfold pixelYToLat latToPixelY
    have h1 : b.north - b.south ≠ 0 := sub_ne_zero.mpr (ne_of_gt hsn)
    have h2 : (height : ℚ) ≠ 0 := by positivity
    field_simp
    ring
  rw [hX, hY]
  norm_num

/-- C5 witness: concrete instantiation on the HRRR-like bounds. -/
theorem c5_round_trip_projection_witness :
    |pixelXToLng (GeoBounds.mk 0 10 0 10) 40 (lngToPixelX (GeoBounds.mk 0 10 0 10) 40 3) - 3| ≤
        1 / 1000000000 ∧
    |pixelYToLat (GeoBounds.mk 0 10 0 10) 40 (latToPixelY (GeoBounds.mk 0 10 0 10) 40 7) - 7| ≤
        1 / 1000000000 :=
  c5_round_trip_projection (GeoBounds.mk 0 10 0 10) 40 40 3 7 (by norm_num) (by norm_num)
    (by norm_num) (by norm_num) (by norm_num) (by norm_num) (by norm_num) (by norm_num)

/-- C6: for fixed mn < mx the channel decoder is strictly increasing in the
byte value over 0..255, and decodes 0 to mn and 255 to mx exactly. -/
theorem c6_decode_monotone_endpoints (mn mx : ℚ) (h : mn < mx) :
    (∀ b1 b2 : ℕ, b1 < b2 → b2 ≤ 255 →
      decodeWindComponent b1 mn mx < decodeWindComponent b2 mn mx) ∧
    decodeWindComponent 0 mn mx = mn ∧ decodeWindComponent 255 mn mx = mx := by
  refine ⟨?_, ?_, ?_⟩
  · intro b1 b2 hlt _
    unfold decodeWindComponent
    have hb : (b1 : ℚ) < (b2 : ℚ) := by exact_mod_cast hlt
    have hdiv : (b1 : ℚ) / 255 < (b2 : ℚ) / 255 := by
      exact (div_lt_div_iff_of_pos_right (by norm_num)).mpr hb
    exact add_lt_add_right (mul_lt_mul_of_pos_right hdiv (sub_pos.mpr h)) mn
  · unfold decodeWindComponent
    norm_num
  · unfold decodeWindComponent
    field_simp

/-- C6 witness: the default wind decode range -50..50. -/
theorem c6_decode_monotone_endpoints_witness :
    decodeWindComponent 0 (-50) 50 = -50 ∧ decodeWindComponent 255 (-50) 50 = 50 ∧
    decodeWindComponent 10 (-50) 50 < decodeWindComponent 20 (-50) 50 :=
  ⟨(c6_decode_monotone_endpoints (-50) 50 (by norm_num)).2.1,
   (c6_decode_monotone_endpoints (-50) 50 (by norm_num)).2.2,
   (c6_decode_monotone_endpoints (-50) 50 (by norm_num)).1 10 20 (by norm_num) (by norm_num)⟩

/-- C7: the sampler floors its coordinates and returns none exactly when the
floored pixel address lies outside the grid or the alpha byte there is 0;
on an in-range valid pixel it returns the decoded u, v and magnitude.  It is
a pure function of (field, x, y) by construction. -/
theorem c7_sampler_invalidity (wd : WindData) (x y : ℚ) :
    (getWindAtPixel wd x y = none ↔
      (⌊x⌋ < 0 ∨ (wd.width : ℤ) ≤ ⌊x⌋ ∨ ⌊y⌋ < 0 ∨ (wd.height : ℤ) ≤ ⌊y⌋ ∨
        wd.data ((⌊y⌋.toNat * wd.width + ⌊x⌋.toNat) * 4 + 3) = 0)) ∧
    (¬(⌊x⌋ < 0 ∨ (wd.width : ℤ) ≤ ⌊x⌋ ∨ ⌊y⌋ < 0 ∨ (wd.height : ℤ) ≤ ⌊y⌋) →
      wd.data ((⌊y⌋.toNat * wd.width + ⌊x⌋.toNat) * 4 + 3) ≠ 0 →
      getWindAtPixel wd x y =
        some
          { u := decodeWindComponent (wd.data ((⌊y⌋.toNat * wd.width + ⌊x⌋.toNat) * 4)) (-50) 50,
            v := decodeWindComponent
                (wd.data ((⌊y⌋.toNat * wd.width + ⌊x⌋.toNat) * 4 + 1)) (-50) 50,
            magnitude :=
                ((wd.data ((⌊y⌋.toNat * wd.width + ⌊x⌋.toNat) * 4 + 2) : ℚ) / 255) * 70.7 }) := by
  constructor
  · unfold getWindAtPixel
    split_ifs with h1 h2
    · simp only [true_iff]
      tauto
    · simp only [true_iff]
      tauto
    · simp only [reduceCtorEq, false_iff]
      tauto
  · intro hin ha
    unfold getWindAtPixel
    rw [if_neg hin, if_neg ha]

/-- C7 witness: the sampler on the blue-zero fixture at an in-range valid
pixel and at an out-of-range coordinate. -/
theorem c7_sampler_invalidity_witness :
    getWindAtPixel blueZeroField (1/2) (1/2) =
      some { u := decodeWindComponent 255 (-50) 50, v := decodeWindComponent 255 (-50) 50,
             magnitude := ((0 : ℚ) / 255) * 70.7 } ∧
    (getWindAtPixel blueZeroField 5 0 = none ↔ True) := by
  constructor
  · have h :=
      (c7_sampler_invalidity blueZeroField (1/2) (1/2)).2 (by with_unfolding_all decide)
        (by with_unfolding_all decide)
    rw [h]
    with_unfolding_all decide
  · rw [(c7_sampler_invalidity blueZeroField 5 0).1]
    simp only [iff_true]
    with_unfolding_all decide

/-- A floored downscaled count never exceeds the base count. -/
lemma floor_mul_le_base (base m : ℚ) (hb : 0 ≤ base) (hm : m ≤ 1) :
    ((⌊base * m⌋ : ℤ) : ℚ) ≤ base :=
  le_trans (Int.floor_le _) (by nlinarith)

/-- Floored downscaled counts are monotone in the multiplier. -/
lemma floor_mul_mono (base : ℚ) (hb : 0 ≤ base) {m1 m2 : ℚ} (h : m1 ≤ m2) :
    ((⌊base * m1⌋ : ℤ) : ℚ) ≤ ((⌊base * m2⌋ : ℤ) : ℚ) := by
  exact_mod_cast Int.floor_mono (by nlinarith)

/-- C8: both zoom-derived parameters are non-increasing in zoom: for z1 < z2
and base count at least 0, the particle count at z2 is at most the count at
z1, and likewise for the speed factor. -/
theorem c8_zoom_policy_monotone (z1 z2 : ℚ) (base : ℚ) (hz : z1 < z2) (hb : 0 ≤ base) :
    getParticleCount z2 base ≤ getParticleCount z1 base ∧
    getSpeedFactor z2 ≤ getSpeedFactor z1 := by
  constructor
  · unfold getParticleCount
    split_ifs <;>
      first
        | linarith
        | exact floor_mul_le_base base _ hb (by norm_num)
        | exact floor_mul_mono base hb (by norm_num)
  · unfold getSpeedFactor
    split_ifs <;> linarith

/-- C8 witness: zoom 3 against zoom 5 at the default base count. -/
theorem c8_zoom_policy_monotone_witness :
    getParticleCount 5 2000 ≤ getParticleCount 3 2000 ∧
    getSpeedFactor 5 ≤ getSpeedFactor 3 :=
  c8_zoom_policy_monotone 3 5 2000 (by norm_num) (by norm_num)

/-- Every element of an updateEach image is the image of a list element. -/
lemma mem_updateEach (f : ℕ → Particle → Particle) {q : Particle} :
    ∀ (i : ℕ) (ps : List Particle), q ∈ updateEach f i ps → ∃ j, ∃ p ∈ ps, q = f j p := by
  intro i ps
  induction ps generalizing i with
  | nil => intro h; simp [updateEach] at h
  | cons p ps ih =>
      intro h
      simp only [updateEach, List.mem_cons] at h
      rcases h with h | h
      · exact ⟨i, p, List.mem_cons_self p ps, h⟩
      · obtain ⟨j, p2, hp2, hq⟩ := ih (i + 1) h
        exact ⟨j, p2, List.mem_cons_of_mem p hp2, hq⟩

/-- updateEach preserves any relation that each per-index function
establishes pointwise. -/
lemma forall₂_updateEach {R : Particle → Particle → Prop} (f : ℕ → Particle → Particle)
    (hf : ∀ i p, R (f i p) p) :
    ∀ (i : ℕ) (ps : List Particle), List.Forall₂ R (updateEach f i ps) ps
  | _, [] => List.Forall₂.nil
  | i, p :: ps => List.Forall₂.cons (hf i p) (forall₂_updateEach f hf (i + 1) ps)

/-- updateEach collapses to a plain map when the per-index function agrees
with an index-free function on every list element. -/
lemma updateEach_eq_map (f : ℕ → Particle → Particle) (g : Particle → Particle) :
    ∀ (i : ℕ) (ps : List Particle), (∀ j, ∀ p ∈ ps, f j p = g p) →
      updateEach f i ps = ps.map g := by
  intro i ps
  induction ps generalizing i with
  | nil => intro _; rfl
  | cons p ps ih =>
      intro h
      simp only [updateEach, List.map_cons]
      rw [h i p (List.mem_cons_self p ps)]
      exact congrArg _ (ih (i + 1) (fun j q hq => h j q (List.mem_cons_of_mem p hq)))

/-- With an all-zero validity mask the sampling stage never advects:
the particle coasts, position and trail untouched. -/
lemma advect_of_invalid (wd : WindData) (hA : ∀ j, wd.data (j * 4 + 3) = 0)
    (sF : ℚ) (L : ℤ) (p : Particle) : advect wd sF L p = p := by
  unfold advect
  split_ifs with h1 h2
  · rw [hA] at h2
    exact absurd h2 (lt_irrefl 0)
  · rfl
  · rfl

/-- With a zero-width or zero-height grid the sampling stage in-range test
fails for every position, so the particle is never advected. -/
lemma advect_degenerate (wd : WindData) (sF : ℚ) (L : ℤ) (p : Particle)
    (h : wd.width = 0 ∨ wd.height = 0) : advect wd sF L p = p := by
  unfold advect
  rw [if_neg]
  intro hc
  rcases h with h | h <;> rw [h] at hc <;>
    · obtain ⟨h1, h2, h3, h4⟩ := hc
      simp only [Nat.cast_zero] at h2 h4
      omega

/-- A particle that is in range and below its age limit is not respawned:
the aging stage only increments its age. -/
lemma ageAndRespawn_no_respawn (wd : WindData) (m : ℤ) (r : ℚ × ℚ × ℚ) (p : Particle)
    (hage : p.age + 1 ≤ p.maxAge) (hx1 : 0 ≤ p.x) (hx2 : p.x < wd.width)
    (hy1 : 0 ≤ p.y) (hy2 : p.y < wd.height) :
    ageAndRespawn wd m r p = { p with age := p.age + 1 } := by
  unfold ageAndRespawn
  rw [if_neg]
  push_neg
  exact ⟨hage, hx1, hx2, hy1, hy2⟩

/-- On a zero-width or zero-height grid the reset condition always fires:
the aging stage always respawns. -/
lemma ageAndRespawn_degenerate (wd : WindData) (m : ℤ) (r : ℚ × ℚ × ℚ) (p : Particle)
    (h : wd.width = 0 ∨ wd.height = 0) :
    ageAndRespawn wd m r p = respawnParticle wd m r { p with age := p.age + 1 } := by
  unfold ageAndRespawn
  rw [if_pos]
  rcases h with h | h
  · rcases le_or_lt 0 p.x with hx | hx
    · refine Or.inr (Or.inr (Or.inl ?_))
      rw [h]
      simpa using hx
    · exact Or.inr (Or.inl hx)
  · rcases le_or_lt 0 p.y with hy | hy
    · refine Or.inr (Or.inr (Or.inr (Or.inr ?_)))
      rw [h]
      simpa using hy
    · exact Or.inr (Or.inr (Or.inr (Or.inl hy)))

/-- A coasting tick: with an all-zero validity mask, an in-range particle
below its age limit keeps position, geographic coordinates and trail, and
only its age advances. -/
lemma coast_tick (wd : WindData) (hA : ∀ j, wd.data (j * 4 + 3) = 0)
    (sF : ℚ) (L m : ℤ) (r : ℚ × ℚ × ℚ) (p : Particle)
    (hage : p.age + 1 ≤ p.maxAge) (hx1 : 0 ≤ p.x) (hx2 : p.x < wd.width)
    (hy1 : 0 ≤ p.y) (hy2 : p.y < wd.height) :
    updateParticle wd sF L m r p = { p with age := p.age + 1 } := by
  unfold updateParticle
  rw [advect_of_invalid wd hA sF L p,
    ageAndRespawn_no_respawn wd m r p hage hx1 hx2 hy1 hy2]

/-- Multi-step coasting: with an all-zero validity mask, n steps leave
every in-range particle whose age headroom covers the n ticks exactly where
it started, with its trail intact and its age advanced by n. -/
lemma coast_stepN (wd : WindData) (zoom : ℚ) (bt m : ℤ) (rngs : ℕ → ℕ → ℚ × ℚ × ℚ)
    (hA : ∀ j, wd.data (j * 4 + 3) = 0) :
    ∀ (n : ℕ) (ps : List Particle),
      (∀ p ∈ ps, 0 ≤ p.x ∧ p.x < wd.width ∧ 0 ≤ p.y ∧ p.y < wd.height ∧
        p.age + n ≤ p.maxAge) →
      stepN wd zoom bt m rngs n ps = ps.map (fun p => { p with age := p.age + n }) := by
  intro n
  induction n with
  | zero =>
      intro ps _
      have hmap : ∀ p ∈ ps, ({ p with age := p.age + (0 : ℕ) } : Particle) = p := by
        intro p _
        cases p
        simp
      calc stepN wd zoom bt m rngs 0 ps = ps := rfl
        _ = ps.map (fun p => { p with age := p.age + (0 : ℕ) }) := by
            rw [List.map_congr_left hmap, List.map_id']
  | succ n ih =>
      intro ps hps
      have hps' : ∀ p ∈ ps, 0 ≤ p.x ∧ p.x < wd.width ∧ 0 ≤ p.y ∧ p.y < wd.height ∧
          p.age + n ≤ p.maxAge := by
        intro p hp
        obtain ⟨h1, h2, h3, h4, h5⟩ := hps p hp
        refine ⟨h1, h2, h3, h4, ?_⟩
        push_cast at h5 ⊢
        omega
      show updateParticles wd zoom bt m (rngs n) (stepN wd zoom bt m rngs n ps) =
        ps.map (fun p => { p with age := p.age + (n + 1 : ℕ) })
      rw [ih ps hps']
      unfold updateParticles
      rw [updateEach_eq_map _ (fun q => { q with age := q.age + 1 }) 0 _ ?hcoast]
      case hcoast =>
        intro j q hq
        rw [List.mem_map] at hq
        obtain ⟨p, hp, rfl⟩ := hq
        obtain ⟨h1, h2, h3, h4, h5⟩ := hps p hp
        refine coast_tick wd hA _ _ m _ _ ?_ h1 h2 h3 h4
        show p.age + (n : ℕ) + 1 ≤ p.maxAge
        push_cast at h5 ⊢
        omega
      rw [List.map_map]
      refine List.map_congr_left ?_
      intro p _
      show ({ p with age := p.age + (n : ℕ) + 1 } : Particle) = _
      cases p
      simp only [Particle.mk.injEq, and_true, true_and]
      push_cast
      ring

/-- C1: corrected invalid-pixel coasting.  With an all-zero validity mask,
a tick with an invalid sample leaves position and trail unchanged provided
the particle is in range and below its age limit, and 100 steps leave
every particle at its starting position with its trail intact provided
every particle has age headroom of at least 100 ticks; ages still advance,
so without that headroom the max-age respawn fires and moves the particle
(see the counterexample). -/
theorem c1_invalid_pixel_coasting (wd : WindData) (zoom : ℚ) (bt m : ℤ)
    (rngs : ℕ → ℕ → ℚ × ℚ × ℚ) (ps : List Particle)
    (hA : ∀ j, wd.data (j * 4 + 3) = 0)
    (hps : ∀ p ∈ ps, 0 ≤ p.x ∧ p.x < wd.width ∧ 0 ≤ p.y ∧ p.y < wd.height ∧
      p.age + 100 ≤ p.maxAge) :
    stepN wd zoom bt m rngs 100 ps = ps.map (fun p => { p with age := p.age + 100 }) ∧
    ∀ (sF : ℚ) (L mm : ℤ) (r : ℚ × ℚ × ℚ) (p : Particle),
      0 ≤ p.x → p.x < wd.width → 0 ≤ p.y → p.y < wd.height → p.age + 1 ≤ p.maxAge →
      updateParticle wd sF L mm r p = { p with age := p.age + 1 } := by
  constructor
  · have h := coast_stepN wd zoom bt m rngs hA 100 ps ?hh
    case hh =>
      intro p hp
      obtain ⟨h1, h2, h3, h4, h5⟩ := hps p hp
      exact ⟨h1, h2, h3, h4, by push_cast; omega⟩
    rw [h]
    refine List.map_congr_left ?_
    intro p _
    cases p
    simp only [Particle.mk.injEq, and_true, true_and]
    push_cast
    ring
  · intro sF L mm r p hx1 hx2 hy1 hy2 hage
    exact coast_tick wd hA sF L mm r p hage hx1 hx2 hy1 hy2

/-- Splitting consecutive ticks under a tick-independent random stream. -/
lemma stepN_const_add (wd : WindData) (zoom : ℚ) (bt m : ℤ) (c : ℕ → ℚ × ℚ × ℚ) :
    ∀ (a b : ℕ) (ps : List Particle),
      stepN wd zoom bt m (fun _ => c) (a + b) ps =
        stepN wd zoom bt m (fun _ => c) b (stepN wd zoom bt m (fun _ => c) a ps) := by
  intro a b
  induction b with
  | zero => intro _; rfl
  | succ b ih =>
      intro ps
      show stepN wd zoom bt m (fun _ => c) ((a + b) + 1) ps = _
      simp only [stepN]
      rw [ih ps]

/-- C1 counterexample: the scenario of the claim with the default
configuration (maxAge mean 80).  All validity bytes are 0, the particle is
created by initParticles, yet after 100 step() calls its pixel x-position
differs from the initialized one: the max-age respawn fired during
coasting and moved it. -/
theorem c1_invalid_pixel_coasting_cx :
    (stepN allInvalidField 3 15 80 (fun _ _ => (1/2, 1/2, 0)) 100
        [initParticle allInvalidField 80 0 (0, 1/2, 0, 0)]).map Particle.x ≠
      [(initParticle allInvalidField 80 0 (0, 1/2, 0, 0)).x] := by
  have e0 : initParticle allInvalidField 80 0 (0, 1/2, 0, 0) =
      Particle.mk 0 0 (1/2) 0 (1/2) 0 65 [GeoPoint.mk 0 (1/2)] := by
    with_unfolding_all decide
  rw [e0]
  rw [show (100 : ℕ) = 66 + 34 by norm_num,
    stepN_const_add allInvalidField 3 15 80 (fun _ => (1/2, 1/2, 0)) 66 34,
    show (66 : ℕ) = 65 + 1 by norm_num,
    stepN_const_add allInvalidField 3 15 80 (fun _ => (1/2, 1/2, 0)) 65 1]
  have h65 : stepN allInvalidField 3 15 80 (fun _ _ => (1/2, 1/2, 0)) 65
      [Particle.mk 0 0 (1/2) 0 (1/2) 0 65 [GeoPoint.mk 0 (1/2)]] =
      [Particle.mk 0 0 (1/2) 0 (1/2) 65 65 [GeoPoint.mk 0 (1/2)]] := by
    rw [coast_stepN allInvalidField 3 15 80 (fun _ _ => (1/2, 1/2, 0)) (fun _ => rfl) 65
      [Particle.mk 0 0 (1/2) 0 (1/2) 0 65 [GeoPoint.mk 0 (1/2)]] (by
        intro p hp
        rw [List.mem_singleton] at hp
        subst hp
        refine ⟨?_, ?_, ?_, ?_, ?_⟩ <;> with_unfolding_all decide)]
    with_unfolding_all decide
  rw [h65]
  have h1 : stepN allInvalidField 3 15 80 (fun _ _ => (1/2, 1/2, 0)) 1
      [Particle.mk 0 0 (1/2) 0 (1/2) 65 65 [GeoPoint.mk 0 (1/2)]] =
      [Particle.mk 0 (1/2) (1/2) (1/2) (1/2) 0 65 [GeoPoint.mk (1/2) (1/2)]] := by
    with_unfolding_all decide
  rw [h1]
  have h34 : stepN allInvalidField 3 15 80 (fun _ _ => (1/2, 1/2, 0)) 34
      [Particle.mk 0 (1/2) (1/2) (1/2) (1/2) 0 65 [GeoPoint.mk (1/2) (1/2)]] =
      [Particle.mk 0 (1/2) (1/2) (1/2) (1/2) 34 65 [GeoPoint.mk (1/2) (1/2)]] := by
    rw [coast_stepN allInvalidField 3 15 80 (fun _ _ => (1/2, 1/2, 0)) (fun _ => rfl) 34
      [Particle.mk 0 (1/2) (1/2) (1/2) (1/2) 0 65 [GeoPoint.mk (1/2) (1/2)]] (by
        intro p hp
        rw [List.mem_singleton] at hp
        subst hp
        refine ⟨?_, ?_, ?_, ?_, ?_⟩ <;> with_unfolding_all decide)]
    with_unfolding_all decide
  rw [h34]
  with_unfolding_all decide

/-- C1 witness: a particle with age headroom 200 coasts in place for 100
steps on the all-invalid field; only its age advances, its trail stays a
single point. -/
theorem c1_invalid_pixel_coasting_witness :
    stepN allInvalidField 3 15 80 (fun _ _ => (0, 0, 0)) 100
        [Particle.mk 0 0 (1/2) 0 (1/2) 0 200 [GeoPoint.mk 0 (1/2)]] =
      [Particle.mk 0 0 (1/2) 0 (1/2) 100 200 [GeoPoint.mk 0 (1/2)]] := by
  have h :=
    (c1_invalid_pixel_coasting allInvalidField 3 15 80 (fun _ _ => (0, 0, 0))
      [Particle.mk 0 0 (1/2) 0 (1/2) 0 200 [GeoPoint.mk 0 (1/2)]] (fun _ => rfl)
      (by
        intro p hp
        rw [List.mem_singleton] at hp
        subst hp
        refine ⟨?_, ?_, ?_, ?_, ?_⟩ <;> with_unfolding_all decide)).1
  rw [h]
  with_unfolding_all decide

/-- A respawned particle's pixel x equals the longitude draw scaled by the
width, so it lies in [0, width) for a draw in [0, 1). -/
lemma respawn_x_eq (wd : WindData) (m : ℤ) (r : ℚ × ℚ × ℚ) (p : Particle)
    (hwe : wd.bounds.west < wd.bounds.east) :
    (respawnParticle wd m r p).x = r.1 * wd.width := by
  have hne : wd.bounds.east - wd.bounds.west ≠ 0 := sub_ne_zero.mpr hwe.ne'
  show ((wd.bounds.west + r.1 * (wd.bounds.east - wd.bounds.west)) - wd.bounds.west) /
      (wd.bounds.east - wd.bounds.west) * (wd.width : ℚ) = r.1 * wd.width
  rw [add_sub_cancel_left, mul_div_cancel_right₀ _ hne]

/-- A respawned particle's pixel y equals (1 - latitude draw) scaled by the
height: the latitude-to-y mapping flips the unit interval, so a draw of
exactly 0 yields y = height. -/
lemma respawn_y_eq (wd : WindData) (m : ℤ) (r : ℚ × ℚ × ℚ) (p : Particle)
    (hsn : wd.bounds.south < wd.bounds.north) :
    (respawnParticle wd m r p).y = (1 - r.2.1) * wd.height := by
  have hne : wd.bounds.north - wd.bounds.south ≠ 0 := sub_ne_zero.mpr hsn.ne'
  show (wd.bounds.north - (wd.bounds.south + r.2.1 * (wd.bounds.north - wd.bounds.south))) /
      (wd.bounds.north - wd.bounds.south) * (wd.height : ℚ) = (1 - r.2.1) * wd.height
  have hnum : wd.bounds.north - (wd.bounds.south + r.2.1 * (wd.bounds.north - wd.bounds.south)) =
      (1 - r.2.1) * (wd.bounds.north - wd.bounds.south) := by ring
  rw [hnum, mul_div_cancel_right₀ _ hne]

/-- After one full per-particle tick the pixel position lies in
[0, width) x [0, height]: either the reset condition was false, which
bounds the position strictly, or the particle respawned to a position
determined by the draws, whose y can reach height exactly. -/
lemma updateParticle_in_range (wd : WindData) (sF : ℚ) (L m : ℤ) (r : ℚ × ℚ × ℚ)
    (p : Particle) (hw : 0 < wd.width) (hh : 0 < wd.height)
    (hwe : wd.bounds.west < wd.bounds.east) (hsn : wd.bounds.south < wd.bounds.north)
    (hr1 : 0 ≤ r.1) (hr2 : r.1 < 1) (hr3 : 0 ≤ r.2.1) (hr4 : r.2.1 < 1) :
    0 ≤ (updateParticle wd sF L m r p).x ∧
    (updateParticle wd sF L m r p).x < wd.width ∧
    0 ≤ (updateParticle wd sF L m r p).y ∧
    (updateParticle wd sF L m r p).y ≤ wd.height := by
  have hwQ : (0 : ℚ) < wd.width := by exact_mod_cast hw
  have hhQ : (0 : ℚ) < wd.height := by exact_mod_cast hh
  unfold updateParticle ageAndRespawn
  split_ifs with h
  · rw [respawn_x_eq wd m r _ hwe, respawn_y_eq wd m r _ hsn]
    refine ⟨mul_nonneg hr1 hwQ.le, ?_, mul_nonneg (by linarith) hhQ.le, ?_⟩
    · nlinarith
    · nlinarith
  · push_neg at h
    exact ⟨h.2.1, h.2.2.1, h.2.2.2.1, (h.2.2.2.2).le⟩

/-- C2: corrected respawn bounds.  After any positive number of steps on a
well-formed field, with respawn draws in [0, 1), every particle's pixel
position lies in [0, width) x [0, height]: x is always strictly below
width, but y can equal height exactly when a respawn latitude draw is 0
(latitude south maps to y = height), so the claimed half-open bound on y
fails (see the counterexample). -/
theorem c2_respawn_bounds (wd : WindData) (zoom : ℚ) (bt m : ℤ)
    (rngs : ℕ → ℕ → ℚ × ℚ × ℚ) (ps : List Particle)
    (hw : 0 < wd.width) (hh : 0 < wd.height)
    (hwe : wd.bounds.west < wd.bounds.east) (hsn : wd.bounds.south < wd.bounds.north)
    (hr : ∀ t i, 0 ≤ (rngs t i).1 ∧ (rngs t i).1 < 1 ∧
      0 ≤ (rngs t i).2.1 ∧ (rngs t i).2.1 < 1) :
    ∀ n, 1 ≤ n → ∀ q ∈ stepN wd zoom bt m rngs n ps,
      0 ≤ q.x ∧ q.x < wd.width ∧ 0 ≤ q.y ∧ q.y ≤ wd.height := by
  intro n hn q hq
  obtain ⟨k, rfl⟩ : ∃ k, n = k + 1 := ⟨n - 1, by omega⟩
  simp only [stepN] at hq
  unfold updateParticles at hq
  obtain ⟨j, p, _, rfl⟩ := mem_updateEach _ _ _ hq
  obtain ⟨h1, h2, h3, h4⟩ := hr k j
  exact updateParticle_in_range wd _ _ m (rngs k j) p hw hh hwe hsn h1 h2 h3 h4

/-- C2 counterexample: an out-of-range particle is respawned in the same
tick, but the latitude draw 0 (a legitimate Math.random() result) maps it
to y = height, outside the claimed half-open range [0, height). -/
theorem c2_respawn_bounds_cx :
    ¬ ∀ q ∈ updateParticles allValidField 3 15 80 (fun _ => (1/2, 0, 0))
        [Particle.mk 0 5 (1/2) 0 0 0 100 [GeoPoint.mk 0 0]],
      0 ≤ q.y ∧ q.y < (allValidField.height : ℚ) := by
  with_unfolding_all decide

/-- C2 witness: one step on the all-valid 1x1 field advects the particle
out of range and respawns it; the result lies in the amended bounds. -/
theorem c2_respawn_bounds_witness :
    Particle.mk 0 (1/2) (1/2) (1/2) (1/2) 0 80 [GeoPoint.mk (1/2) (1/2)] ∈
      stepN allValidField 3 15 80 (fun _ _ => (1/2, 1/2, 1/2)) 1
        [Particle.mk 0 (1/2) (1/2) (1/2) (1/2) 0 100 [GeoPoint.mk (1/2) (1/2)]] ∧
    (0 ≤ (Particle.mk 0 (1/2) (1/2) (1/2) (1/2) 0 80 [GeoPoint.mk (1/2) (1/2)]).x ∧
      (Particle.mk 0 (1/2) (1/2) (1/2) (1/2) 0 80 [GeoPoint.mk (1/2) (1/2)]).x <
        (allValidField.width : ℚ) ∧
      0 ≤ (Particle.mk 0 (1/2) (1/2) (1/2) (1/2) 0 80 [GeoPoint.mk (1/2) (1/2)]).y ∧
      (Particle.mk 0 (1/2) (1/2) (1/2) (1/2) 0 80 [GeoPoint.mk (1/2) (1/2)]).y ≤
        (allValidField.height : ℚ)) := by
  constructor
  · with_unfolding_all decide
  · refine c2_respawn_bounds allValidField 3 15 80 (fun _ _ => (1/2, 1/2, 1/2))
      [Particle.mk 0 (1/2) (1/2) (1/2) (1/2) 0 100 [GeoPoint.mk (1/2) (1/2)]]
      (by norm_num [allValidField]) (by norm_num [allValidField])
      (by norm_num [allValidField]) (by norm_num [allValidField])
      (fun t i => by norm_num) 1 (le_refl 1) _ ?_
    with_unfolding_all decide

/-- A grown-then-trimmed trail never exceeds the (nonnegative) trail
length parameter: either the trim fired, cutting to the parameter, or the
grown trail was already within it. -/
lemma growTrail_length_le (L : ℤ) (hL : 0 ≤ L) (pt : GeoPoint) (trail : List GeoPoint) :
    ((growTrail L pt trail).length : ℤ) ≤ L := by
  unfold growTrail
  split_ifs with h1
  · unfold jsSliceTo
    rw [if_pos hL, List.length_take]
    push_cast
    rw [Int.toNat_of_nonneg hL]
    exact min_le_left _ _
  · push_cast at h1 ⊢
    omega

/-- The sampling stage leaves the trail no longer than the maximum of the
(nonnegative) trail length parameter and its previous length: an advected
particle's trail is trimmed to the parameter, a coasting particle keeps
its old trail. -/
lemma advect_trail_le (wd : WindData) (sF : ℚ) (L : ℤ) (p : Particle) (hL : 0 ≤ L) :
    ((advect wd sF L p).trail.length : ℤ) ≤ max L (p.trail.length : ℤ) := by
  unfold advect
  split_ifs with h1 h2
  · exact le_max_of_le_left (growTrail_length_le L hL _ _)
  · exact le_max_of_le_right (le_refl _)
  · exact le_max_of_le_right (le_refl _)

/-- One full per-particle tick leaves the trail no longer than the maximum
of the (nonnegative) trail length parameter, the previous trail length and
one. -/
lemma updateParticle_trail_le (wd : WindData) (sF : ℚ) (L m : ℤ) (r : ℚ × ℚ × ℚ)
    (p : Particle) (hL : 0 ≤ L) :
    ((updateParticle wd sF L m r p).trail.length : ℤ) ≤
      max L (max (p.trail.length : ℤ) 1) := by
  unfold updateParticle ageAndRespawn
  split_ifs with h
  · show ((1 : ℕ) : ℤ) ≤ max L (max ((p.trail.length : ℕ) : ℤ) 1)
    exact le_max_of_le_right (by push_cast; exact le_max_right _ _)
  · refine le_trans (advect_trail_le wd sF L p hL) ?_
    exact max_le_max (le_refl L) (le_max_left _ _)

/-- The zoom-derived trail length is nonnegative for a nonnegative base. -/
lemma getTrailLength_nonneg (zoom : ℚ) (bt : ℤ) (hbt : 0 ≤ bt) :
    0 ≤ getTrailLength zoom bt := by
  have h8 : (0 : ℚ) ≤ (bt : ℚ) := by exact_mod_cast hbt
  unfold getTrailLength
  split_ifs <;>
    first
      | exact hbt
      | exact Int.floor_nonneg.mpr (mul_nonneg h8 (by norm_num))
      | exact le_max_of_le_left (by norm_num)

/-- C3: corrected trail length invariant.  After a step, every particle's
trail length is bounded by the maximum of the zoom-derived trailLength,
its pre-step trail length and one: a coasting particle keeps its old,
untrimmed trail, so when trailLength has decreased since the previous step
the claimed bound trail.length at most trailLength fails (see the
counterexample); the claimed bound does hold for advected or respawned
particles. -/
theorem c3_trail_length_invariant (wd : WindData) (zoom : ℚ) (bt m : ℤ)
    (rng : ℕ → ℚ × ℚ × ℚ) (ps : List Particle) (hbt : 0 ≤ bt) :
    List.Forall₂
      (fun q p => (q.trail.length : ℤ) ≤
        max (getTrailLength zoom bt) (max (p.trail.length : ℤ) 1))
      (updateParticles wd zoom bt m rng ps) ps := by
  unfold updateParticles
  exact forall₂_updateEach _
    (fun i p =>
      updateParticle_trail_le wd (getSpeedFactor zoom) (getTrailLength zoom bt) m (rng i) p
        (getTrailLength_nonneg zoom bt hbt)) 0 ps

/-- C3 counterexample: at zoom 10 the trail length parameter is
floor(15 * 0.25) = 3, but a coasting particle (invalid sample, no respawn)
keeps its 5-point trail, exceeding the parameter after the step. -/
theorem c3_trail_length_invariant_cx :
    ¬ ∀ q ∈ updateParticles allInvalidField 10 15 80 (fun _ => (0, 0, 0))
        [Particle.mk 0 0 (1/2) 0 (1/2) 0 100
          [GeoPoint.mk 0 0, GeoPoint.mk 0 0, GeoPoint.mk 0 0, GeoPoint.mk 0 0,
            GeoPoint.mk 0 0]],
      (q.trail.length : ℤ) ≤ getTrailLength 10 15 := by
  with_unfolding_all decide

/-- C3 witness: the amended bound at the counterexample configuration. -/
theorem c3_trail_length_invariant_witness :
    List.Forall₂
      (fun q p => (q.trail.length : ℤ) ≤
        max (getTrailLength 10 15) (max (p.trail.length : ℤ) 1))
      (updateParticles allInvalidField 10 15 80 (fun _ => (0, 0, 0))
        [Particle.mk 0 0 (1/2) 0 (1/2) 0 100
          [GeoPoint.mk 0 0, GeoPoint.mk 0 0, GeoPoint.mk 0 0, GeoPoint.mk 0 0,
            GeoPoint.mk 0 0]])
      [Particle.mk 0 0 (1/2) 0 (1/2) 0 100
        [GeoPoint.mk 0 0, GeoPoint.mk 0 0, GeoPoint.mk 0 0, GeoPoint.mk 0 0,
          GeoPoint.mk 0 0]] :=
  c3_trail_length_invariant allInvalidField 10 15 80 (fun _ => (0, 0, 0))
    [Particle.mk 0 0 (1/2) 0 (1/2) 0 100
      [GeoPoint.mk 0 0, GeoPoint.mk 0 0, GeoPoint.mk 0 0, GeoPoint.mk 0 0,
        GeoPoint.mk 0 0]] (by norm_num)

/-- C4: corrected degenerate-field semantics.  On a zero-width or
zero-height field a step never throws (the model is total by construction)
and never advects any particle (sampling is skipped for every position),
but it is not a no-op: every particle's age is incremented and the
out-of-bounds reset then fires unconditionally, so every particle comes out
respawned with age 0, a single-point trail, and pixel x = 0 whenever the
width is zero (see the counterexample against the claimed no-op). -/
theorem c4_degenerate_field (wd : WindData) (zoom : ℚ) (bt m : ℤ)
    (rng : ℕ → ℚ × ℚ × ℚ) (ps : List Particle) (h : wd.width = 0 ∨ wd.height = 0)
    (hwe : wd.bounds.west < wd.bounds.east) :
    ∀ q ∈ updateParticles wd zoom bt m rng ps,
      q.age = 0 ∧ q.trail.length = 1 ∧ (wd.width = 0 → q.x = 0) ∧
      ∃ j, ∃ p ∈ ps, q = respawnParticle wd m (rng j) { p with age := p.age + 1 } := by
  intro q hq
  unfold updateParticles at hq
  obtain ⟨j, p, hp, rfl⟩ := mem_updateEach _ _ _ hq
  show (updateParticle wd (getSpeedFactor zoom) (getTrailLength zoom bt) m (rng j) p).age = 0 ∧ _
  unfold updateParticle
  rw [advect_degenerate wd _ _ p h, ageAndRespawn_degenerate wd m (rng j) p h]
  refine ⟨rfl, rfl, ?_, j, p, hp, rfl⟩
  intro hw
  rw [respawn_x_eq wd m (rng j) _ hwe, hw]
  push_cast
  ring

/-- C4 counterexample: on a zero-width field the claimed no-op fails: one
step changes the particle (its age is reset by the forced respawn and its
trail collapses to one point). -/
theorem c4_degenerate_field_cx :
    updateParticles zeroWidthField 3 15 80 (fun _ => (0, 0, 0))
        [Particle.mk 0 0 0 0 1 3 50 [GeoPoint.mk 0 1, GeoPoint.mk 0 1]] ≠
      [Particle.mk 0 0 0 0 1 3 50 [GeoPoint.mk 0 1, GeoPoint.mk 0 1]] := by
  with_unfolding_all decide

/-- C4 witness: the concrete element produced by one step on the
zero-width field satisfies the amended characterization. -/
theorem c4_degenerate_field_witness :
    Particle.mk 0 0 1 0 0 0 65 [GeoPoint.mk 0 0] ∈
      updateParticles zeroWidthField 3 15 80 (fun _ => (0, 0, 0))
        [Particle.mk 0 0 0 0 1 3 50 [GeoPoint.mk 0 1, GeoPoint.mk 0 1]] ∧
    ((Particle.mk 0 0 1 0 0 0 65 [GeoPoint.mk 0 0]).age = 0 ∧
      (Particle.mk 0 0 1 0 0 0 65 [GeoPoint.mk 0 0]).trail.length = 1 ∧
      (zeroWidthField.width = 0 → (Particle.mk 0 0 1 0 0 0 65 [GeoPoint.mk 0 0]).x = 0) ∧
      ∃ _j : ℕ, ∃ p ∈ [Particle.mk 0 0 0 0 1 3 50 [GeoPoint.mk 0 1, GeoPoint.mk 0 1]],
        Particle.mk 0 0 1 0 0 0 65 [GeoPoint.mk 0 0] =
          respawnParticle zeroWidthField 80 (0, 0, 0) { p with age := p.age + 1 }) := by
  constructor
  · with_unfolding_all decide
  · refine c4_degenerate_field zeroWidthField 3 15 80 (fun _ => (0, 0, 0))
      [Particle.mk 0 0 0 0 1 3 50 [GeoPoint.mk 0 1, GeoPoint.mk 0 1]]
      (Or.inl rfl) (by norm_num [zeroWidthField]) _ ?_
    with_unfolding_all decide

/-- C9: corrected zoom step-table conformance.  On each half-open zoom
interval the particle count equals floor(base times the table multiplier)
(1.00, 0.50, 0.20, 0.08, 0.04, 0.025 for an integer base), the trail
length equals floor(base times the trail multiplier) with a floor of 3 at
zoom at least 12, and the speed multiplier relative to the zoom-below-4
value lies within the table's stated range on every row except that on
zoom 4-6 it is exactly 0.75 only in the Skia variant: the deck.gl variant
(part_007) uses exactly 0.70 there (see the counterexample). -/
theorem c9_zoom_step_table (base bt : ℤ) (s : ℚ) (hs : 0 ≤ s) (z : ℚ) :
    (z < 4 →
      getParticleCount z (base : ℚ) = ((⌊(base : ℚ) * 1⌋ : ℤ) : ℚ) ∧
      getSpeedFactor z = 1 * 0.08 ∧ getSpeedFactorDeck z s = 1 * s ∧
      getTrailLength z bt = ⌊(bt : ℚ) * 1⌋) ∧
    (4 ≤ z → z < 6 →
      getParticleCount z (base : ℚ) = ((⌊(base : ℚ) * 0.5⌋ : ℤ) : ℚ) ∧
      getSpeedFactor z = 0.75 * 0.08 ∧ getSpeedFactorDeck z s = 0.7 * s ∧
      getTrailLength z bt = ⌊(bt : ℚ) * 0.8⌋) ∧
    (6 ≤ z → z < 8 →
      getParticleCount z (base : ℚ) = ((⌊(base : ℚ) * 0.2⌋ : ℤ) : ℚ) ∧
      (0.375 * 0.08 ≤ getSpeedFactor z ∧ getSpeedFactor z ≤ 0.5 * 0.08) ∧
      (0.375 * s ≤ getSpeedFactorDeck z s ∧ getSpeedFactorDeck z s ≤ 0.5 * s) ∧
      getTrailLength z bt = ⌊(bt : ℚ) * 0.6⌋) ∧
    (8 ≤ z → z < 10 →
      getParticleCount z (base : ℚ) = ((⌊(base : ℚ) * 0.08⌋ : ℤ) : ℚ) ∧
      (0.15 * 0.08 ≤ getSpeedFactor z ∧ getSpeedFactor z ≤ 0.19 * 0.08) ∧
      (0.15 * s ≤ getSpeedFactorDeck z s ∧ getSpeedFactorDeck z s ≤ 0.19 * s) ∧
      getTrailLength z bt = ⌊(bt : ℚ) * 0.4⌋) ∧
    (10 ≤ z → z < 12 →
      getParticleCount z (base : ℚ) = ((⌊(base : ℚ) * 0.04⌋ : ℤ) : ℚ) ∧
      (0.06 * 0.08 ≤ getSpeedFactor z ∧ getSpeedFactor z ≤ 0.08 * 0.08) ∧
      (0.06 * s ≤ getSpeedFactorDeck z s ∧ getSpeedFactorDeck z s ≤ 0.08 * s) ∧
      getTrailLength z bt = ⌊(bt : ℚ) * 0.25⌋) ∧
    (12 ≤ z →
      getParticleCount z (base : ℚ) = ((⌊(base : ℚ) * 0.025⌋ : ℤ) : ℚ) ∧
      (0.02 * 0.08 ≤ getSpeedFactor z ∧ getSpeedFactor z ≤ 0.025 * 0.08) ∧
      (0.02 * s ≤ getSpeedFactorDeck z s ∧ getSpeedFactorDeck z s ≤ 0.025 * s) ∧
      getTrailLength z bt = max 3 ⌊(bt : ℚ) * 0.15⌋) := by
  refine ⟨?_, ?_, ?_, ?_, ?_, ?_⟩
  · intro h1
    refine ⟨?_, ?_, ?_, ?_⟩ <;> simp only [getParticleCount, getSpeedFactor, getSpeedFactorDeck, getTrailLength] <;>
      rw [if_pos h1] <;>
        first
          | rfl
          | (rw [mul_one, Int.floor_intCast])
          | ring1
          | linarith
          | (constructor <;> linarith)
  · intro h1 h2
    have e1 : ¬z < 4 := by linarith
    refine ⟨?_, ?_, ?_, ?_⟩ <;> simp only [getParticleCount, getSpeedFactor, getSpeedFactorDeck, getTrailLength] <;>
      rw [if_neg e1, if_pos h2] <;>
        first
          | rfl
          | ring1
          | linarith
          | (constructor <;> linarith)
  · intro h1 h2
    have e1 : ¬z < 4 := by linarith
    have e2 : ¬z < 6 := by linarith
    refine ⟨?_, ?_, ?_, ?_⟩ <;> simp only [getParticleCount, getSpeedFactor, getSpeedFactorDeck, getTrailLength] <;>
      rw [if_neg e1, if_neg e2, if_pos h2] <;>
        first | rfl | ring1 | linarith | (constructor <;> linarith)
  · intro h1 h2
    have e1 : ¬z < 4 := by linarith
    have e2 : ¬z < 6 := by linarith
    have e3 : ¬z < 8 := by linarith
    refine ⟨?_, ?_, ?_, ?_⟩ <;> simp only [getParticleCount, getSpeedFactor, getSpeedFactorDeck, getTrailLength] <;>
      rw [if_neg e1, if_neg e2, if_neg e3, if_pos h2] <;>
        first | rfl | ring1 | linarith | (constructor <;> linarith)
  · intro h1 h2
    have e1 : ¬z < 4 := by linarith
    have e2 : ¬z < 6 := by linarith
    have e3 : ¬z < 8 := by linarith
    have e4 : ¬z < 10 := by linarith
    refine ⟨?_, ?_, ?_, ?_⟩ <;> simp only [getParticleCount, getSpeedFactor, getSpeedFactorDeck, getTrailLength] <;>
      rw [if_neg e1, if_neg e2, if_neg e3, if_neg e4, if_pos h2] <;>
        first | rfl | ring1 | linarith | (constructor <;> linarith)
  · intro h1
    have e1 : ¬z < 4 := by linarith
    have e2 : ¬z < 6 := by linarith
    have e3 : ¬z < 8 := by linarith
    have e4 : ¬z < 10 := by linarith
    have e5 : ¬z < 12 := by linarith
    refine ⟨?_, ?_, ?_, ?_⟩ <;> simp only [getParticleCount, getSpeedFactor, getSpeedFactorDeck, getTrailLength] <;>
      rw [if_neg e1, if_neg e2, if_neg e3, if_neg e4, if_neg e5] <;>
        first | rfl | ring1 | linarith | (constructor <;> linarith)

/-- C9 counterexample: at zoom 5 the deck.gl variant's speed multiplier
relative to its zoom-below-4 value is 0.70, not the exact 0.75 the claim
states for the 4-6 row. -/
theorem c9_zoom_step_table_cx :
    getSpeedFactorDeck 5 1 ≠ 0.75 * getSpeedFactorDeck 3 1 := by
  with_unfolding_all decide

/-- C9 witness: the 4-6 row at zoom 5 with the default configuration. -/
theorem c9_zoom_step_table_witness :
    getParticleCount 5 ((2000 : ℤ) : ℚ) = ((⌊((2000 : ℤ) : ℚ) * 0.5⌋ : ℤ) : ℚ) ∧
    getSpeedFactor 5 = 0.75 * 0.08 ∧ getSpeedFactorDeck 5 1 = 0.7 * 1 ∧
    getTrailLength 5 15 = ⌊((15 : ℤ) : ℚ) * 0.8⌋ :=
  (c9_zoom_step_table 2000 15 1 (by norm_num) 5).2.1 (by norm_num) (by norm_num)

/-- C10: the sampler's magnitude is decoded from the blue channel alone as
(blue / 255) * 70.7, independent of the u and v channels and of any decode
range; in particular the blue-zero fixture with saturated u and v channels
reports magnitude 0, whose square differs from u squared plus v squared. -/
theorem c10_magnitude_from_blue (wd : WindData) (x y : ℚ)
    (hx1 : 0 ≤ ⌊x⌋) (hx2 : ⌊x⌋ < (wd.width : ℤ))
    (hy1 : 0 ≤ ⌊y⌋) (hy2 : ⌊y⌋ < (wd.height : ℤ))
    (ha : wd.data ((⌊y⌋.toNat * wd.width + ⌊x⌋.toNat) * 4 + 3) ≠ 0) :
    getWindAtPixel wd x y =
      some
        { u := decodeWindComponent (wd.data ((⌊y⌋.toNat * wd.width + ⌊x⌋.toNat) * 4)) (-50) 50,
          v := decodeWindComponent (wd.data ((⌊y⌋.toNat * wd.width + ⌊x⌋.toNat) * 4 + 1)) (-50) 50,
          magnitude := ((wd.data ((⌊y⌋.toNat * wd.width + ⌊x⌋.toNat) * 4 + 2) : ℚ) / 255) * 70.7 } ∧
    getWindAtPixel blueZeroField 0 0 = some { u := 50, v := 50, magnitude := 0 } ∧
    ((0 : ℚ) * 0 ≠ 50 * 50 + 50 * 50) := by
  refine ⟨?_, ?_, by norm_num⟩
  · unfold getWindAtPixel
    rw [if_neg, if_neg ha]
    push_neg
    exact ⟨hx1, hx2, hy1, hy2⟩
  · with_unfolding_all decide

/-- C10 witness: the sampler at the blue-zero fixture's single pixel. -/
theorem c10_magnitude_from_blue_witness :
    getWindAtPixel blueZeroField 0 0 =
      some
        { u := decodeWindComponent (blueZeroField.data ((⌊(0 : ℚ)⌋.toNat * blueZeroField.width + ⌊(0 : ℚ)⌋.toNat) * 4)) (-50) 50,
          v := decodeWindComponent (blueZeroField.data ((⌊(0 : ℚ)⌋.toNat * blueZeroField.width + ⌊(0 : ℚ)⌋.toNat) * 4 + 1)) (-50) 50,
          magnitude := ((blueZeroField.data ((⌊(0 : ℚ)⌋.toNat * blueZeroField.width + ⌊(0 : ℚ)⌋.toNat) * 4 + 2) : ℚ) / 255) * 70.7 } :=
  (c10_magnitude_from_blue blueZeroField 0 0 (by with_unfolding_all decide)
    (by with_unfolding_all decide) (by with_unfolding_all decide)
    (by with_unfolding_all decide) (by with_unfolding_all decide)).1

end HrrrWind
